import Mathlib

/-!
Verification of the simple-session library (Go) against its specification.

The development shallowly embeds the parts of the code relevant to the
claims under examination:

* `internal/token/v0/ops.go` and `internal/token/token.go` — the versioned
  authenticated-token codec (`v0.Create` / `v0.Verify`, dispatcher
  `authCreate` / `authVerify`).  Go byte slices are modelled as `List Nat`
  (each element a byte value `< 256`), Go strings as `List Char`.
  HMAC-SHA256 (Go standard library `crypto/hmac`, `crypto/sha256`, external
  to this repository) is modelled as an opaque parameter
  `mac : List Nat → List Char → List Nat` (key, message ↦ MAC bytes);
  theorems carry the hypotheses they need about it (output length 32,
  output bytes `< 256`, distinctness of two specific MACs).
* `encoding/base64` `URLEncoding` (padded base64url), as used by the codec:
  both the encoder and the decoder are modelled, including the decoder's
  non-strict behaviour (CR/LF skipped, unused trailing bits ignored,
  corrupt input rejected).
* `session.go` — `deriveKeys` (HKDF-SHA256 extract/expand, again external
  crypto modelled as opaque parameters), `VerifySessionCSRFToken`,
  `Manager.lookup`, and `Manager.Create`'s retry protocol.
* `internal/retry/retry.go` — `Backoff.Do` with `scale`.  Go `time.Duration`
  is integer nanoseconds, modelled as `ℤ`; `float64` factors are idealised
  as exact rationals `ℚ`, with conversion to integer nanoseconds modelled
  as truncation toward zero (`ratTrunc`).  The per-sleep `rand.Float64()`
  draws are a parameter `u : Nat → ℚ` with `0 ≤ u i < 1`.
* `store/memory/memory.go` and `store/memory/eviction.go` — the in-memory
  store with its `container/heap`-based eviction queue.  The Go map is an
  association list with unique keys; the heap sift-up/sift-down loops are
  given explicit fuel (the loop bounds from the slice length).

Effectful details without bearing on the claims (mutexes, logging,
`context.Context`, the HTTP plumbing) are omitted; clocks are passed
explicitly, as the code itself injects them via `Clock` fields.
-/

deriving instance DecidableEq for Except

/-! ### base64url (Go `encoding/base64`, `URLEncoding` with padding) -/

/-- The base64url alphabet used by Go's `base64.URLEncoding`. -/
def b64Alphabet : List Char :=
  ['A', 'B', 'C', 'D', 'E', 'F', 'G', 'H', 'I', 'J', 'K', 'L', 'M',
   'N', 'O', 'P', 'Q', 'R', 'S', 'T', 'U', 'V', 'W', 'X', 'Y', 'Z',
   'a', 'b', 'c', 'd', 'e', 'f', 'g', 'h', 'i', 'j', 'k', 'l', 'm',
   'n', 'o', 'p', 'q', 'r', 's', 't', 'u', 'v', 'w', 'x', 'y', 'z',
   '0', '1', '2', '3', '4', '5', '6', '7', '8', '9', '-', '_']

/-- The alphabet character for a 6-bit value. -/
def b64Char (v : Nat) : Char := b64Alphabet.getD v 'A'

/-- First index of a character (Go `strings.Index` for one-character
substrings; also the decode map lookup). -/
def strIndex : List Char → Char → Option Nat
  | [], _ => none
  | x :: xs, c => if x = c then some 0 else (strIndex xs c).map (· + 1)

/-- The 6-bit value of an alphabet character (`none` for characters outside
the alphabet, as in Go's `decodeMap`). -/
def b64Index (c : Char) : Option Nat := strIndex b64Alphabet c

/-- Go `base64.URLEncoding.EncodeToString`: 3-byte groups become 4
characters; a 1- or 2-byte tail is padded with `=`. -/
def base64urlEncode : List Nat → List Char
  | [] => []
  | [b0] => [b64Char (b0 / 4), b64Char (b0 % 4 * 16), '=', '=']
  | [b0, b1] =>
    [b64Char (b0 / 4), b64Char (b0 % 4 * 16 + b1 / 16), b64Char (b1 % 16 * 4), '=']
  | b0 :: b1 :: b2 :: rest =>
    b64Char (b0 / 4) :: b64Char (b0 % 4 * 16 + b1 / 16) ::
      b64Char (b1 % 16 * 4 + b2 / 64) :: b64Char (b2 % 64) :: base64urlEncode rest

/-- One pass of Go's `decodeQuantum` over the input with CR/LF already
removed: 4-character quanta, `=` padding allowed only at the end of the
final quantum (positions 2–3), unused trailing bits ignored (the encoding
is not `Strict()`), anything else a corrupt-input error (`none`). -/
def base64urlDecodeQuanta : List Char → Option (List Nat)
  | [] => some []
  | c0 :: c1 :: c2 :: c3 :: rest =>
    match b64Index c0, b64Index c1 with
    | some v0, some v1 =>
      if c2 = '=' then
        if c3 = '=' ∧ rest = [] then some [v0 * 4 + v1 / 16] else none
      else
        match b64Index c2 with
        | some v2 =>
          if c3 = '=' then
            if rest = [] then some [v0 * 4 + v1 / 16, v1 % 16 * 16 + v2 / 4] else none
          else
            match b64Index c3 with
            | some v3 =>
              (base64urlDecodeQuanta rest).map
                fun bs => (v0 * 4 + v1 / 16) :: (v1 % 16 * 16 + v2 / 4) :: (v2 % 4 * 64 + v3) :: bs
            | none => none
        | none => none
    | _, _ => none
  | _ => none

/-- Go `base64.URLEncoding.DecodeString`: CR and LF are skipped wherever
they occur, everything else is decoded in 4-character quanta. -/
def base64urlDecode (s : List Char) : Option (List Nat) :=
  base64urlDecodeQuanta (s.filter fun c => !(c == '\r' || c == '\n'))
/-! ### The v0 token codec (`internal/token/v0/ops.go`, `internal/token/common/common.go`) -/

/-- Token error taxonomy of `internal/token/common`: `ErrUnsupportedVersion`,
`ErrBadToken` (structurally invalid), `ErrInvalidToken` (fails authenticity
checks).  The `fmt.Errorf` wrapping is dropped; callers discriminate with
`errors.Is`, which this models. -/
inductive TokenErr
  | unsupportedVersion
  | badToken
  | invalidToken
deriving DecidableEq

/-- `common.VersionHeaderSeparator` — a one-character string, so
`strings.Index`/`strings.Contains` against it are character searches. -/
def versionHeaderSeparator : Char := '!'

/-- `v0.macFooterSeparator`, also one character. -/
def macFooterSeparator : Char := '.'

/-- `v0.Version`. -/
def v0.Version : List Char := ['v', '0']

/-- `strings.Contains(s, sub)` for a one-character `sub`. -/
def strContains (s : List Char) (c : Char) : Bool := (strIndex s c).isSome

/-- The sub-errors of `v0.uniqueIndex` (`errNotFound`, `errNotUnique`);
both are wrapped into `ErrBadToken` by `Verify`. -/
inductive SepErr
  | notFound
  | notUnique
deriving DecidableEq

/-- `v0.uniqueIndex`: index of the unique occurrence of the separator. -/
def uniqueIndex (s : List Char) (c : Char) : Except SepErr Nat :=
  match strIndex s c with
  | none => .error .notFound
  | some i => if strContains (s.drop (i + 1)) c then .error .notUnique else .ok i

/-- `v0.Create`: `"v0" + "!" + base64url(data)` is the message; the token
appends `"." + base64url(mac(key, message))`.  `mac` stands for
HMAC-SHA256 (`crypto/hmac` with `crypto/sha256`). -/
def v0.Create (mac : List Nat → List Char → List Nat) (key : List Nat) (data : List Nat) :
    List Char :=
  let msg := v0.Version ++ versionHeaderSeparator :: base64urlEncode data
  msg ++ macFooterSeparator :: base64urlEncode (mac key msg)

/-- `v0.base64MACLen`: length of a base64-encoded 32-byte MAC. -/
def base64MACLen : Nat := 44

/-- `v0.Verify`, following the source line by line: locate the unique `!`,
check the version prefix, locate the unique `.`, check the MAC footer
length, decode the MAC footer, recompute and compare the MAC
(`hmac.Equal` is equality of byte sequences), and only then decode the
payload segment. -/
def v0.Verify (mac : List Nat → List Char → List Nat) (key : List Nat) (token : List Char) :
    Except TokenErr (List Nat) :=
  match uniqueIndex token versionHeaderSeparator with
  | .error _ => .error .badToken
  | .ok i =>
    if token.take i ≠ v0.Version then .error .unsupportedVersion
    else
      match uniqueIndex token macFooterSeparator with
      | .error _ => .error .badToken
      | .ok j =>
        if token.length - j ≠ base64MACLen + 1 then .error .badToken
        else
          match base64urlDecode (token.drop (j + 1)) with
          | none => .error .badToken
          | some macBytes =>
            if mac key (token.take j) ≠ macBytes then .error .invalidToken
            else
              match base64urlDecode ((token.take j).drop (i + 1)) with
              | none => .error .badToken
              | some data => .ok data

/-! ### Dispatcher (`internal/token/token.go`) -/

/-- `token.v0Header = v0.Version + common.VersionHeaderSeparator`. -/
def v0Header : List Char := v0.Version ++ [versionHeaderSeparator]

/-- `token.Authenticator.Create` delegates to the v0 codec. -/
def authCreate (mac : List Nat → List Char → List Nat) (key : List Nat) (data : List Nat) :
    List Char :=
  v0.Create mac key data

/-- `token.Authenticator.Verify`: dispatch on the `"v0!"` prefix, otherwise
`ErrUnsupportedVersion`. -/
def authVerify (mac : List Nat → List Char → List Nat) (key : List Nat) (token : List Char) :
    Except TokenErr (List Nat) :=
  if v0Header.isPrefixOf token then v0.Verify mac key token else .error .unsupportedVersion

/-! ### Retry policy (`internal/retry/retry.go`) -/

/-- `ErrInvalidPolicyParam`, `ErrAborted`, `ErrExhausted`. -/
inductive RetryErr
  | invalidPolicyParam
  | aborted
  | exhausted
deriving DecidableEq

/-- `retry.Backoff`.  `Base` is a `time.Duration` (integer nanoseconds,
modelled as `ℤ`); `Growth` and `Jitter` are `float64`, idealised as exact
rationals. -/
structure Backoff where
  base : ℤ
  growth : ℚ
  jitter : ℚ

/-- `Backoff.validate`: `Growth < 1`, `Jitter < 0` and `Jitter > 1` each
yield `ErrInvalidPolicyParam`. -/
def Backoff.validate (b : Backoff) : Option RetryErr :=
  if b.growth < 1 then some .invalidPolicyParam
  else if b.jitter < 0 then some .invalidPolicyParam
  else if b.jitter > 1 then some .invalidPolicyParam
  else none

/-- Truncation toward zero, the behaviour of Go's `float64` → `int64`
conversion (`Int.tdiv` rounds toward zero). -/
def ratTrunc (q : ℚ) : ℤ := q.num.tdiv q.den

/-- `retry.scale`: scales the duration `d` by `f`, truncated to integer
nanoseconds. -/
def scale (d : ℤ) (f : ℚ) : ℤ := ratTrunc ((d : ℚ) * f)

/-- Observable outcome of one `Backoff.Do` call: the returned error (with
`nil` as `ok`), the final state of the work closure, how many times the
work function ran, and the sequence of sleep durations requested. -/
structure DoResult (σ : Type) where
  out : Except RetryErr Unit
  state : σ
  calls : Nat
  sleeps : List ℤ

/-- The `for i := 1; i <= n; i++` loop body of `Backoff.Do`.  `fn i s`
returns the closure state after attempt `i` together with the `done` and
`aborted` flags it raised via the `RetryContext` (`done` is checked
first); `rem` is the number of attempts still allowed (`n - i + 1`), `d`
the current base delay, and `u i` the `rand.Float64()` draw for the sleep
after attempt `i`.  A sleep of `scale d (1 + J*(2u-1))` occurs only when
`i < n`, after which `d` becomes `scale d growth`. -/
def doLoop {σ : Type} (fn : Nat → σ → σ × Bool × Bool) (u : Nat → ℚ) (b : Backoff) :
    Nat → Nat → ℤ → σ → DoResult σ
  | _, 0, _, s => ⟨.error .exhausted, s, 0, []⟩
  | i, rem + 1, d, s =>
    match fn i s with
    | (s', doneFlag, abortedFlag) =>
      if doneFlag then ⟨.ok (), s', 1, []⟩
      else if abortedFlag then ⟨.error .aborted, s', 1, []⟩
      else if rem = 0 then ⟨.error .exhausted, s', 1, []⟩
      else
        let r := doLoop fn u b (i + 1) rem (scale d b.growth) s'
        ⟨r.out, r.state, r.calls + 1, scale d (1 + b.jitter * (2 * u i - 1)) :: r.sleeps⟩

/-- `Backoff.Do`: validate the policy parameters first (without invoking
`fn`), then run the attempt loop; a non-positive attempt budget `n` means
the loop body never runs and `ErrExhausted` is returned. -/
def Backoff.Do {σ : Type} (b : Backoff) (fn : Nat → σ → σ × Bool × Bool) (u : Nat → ℚ)
    (n : ℤ) (s0 : σ) : DoResult σ :=
  match b.validate with
  | some e => ⟨.error e, s0, 0, []⟩
  | none => doLoop fn u b 1 n.toNat b.base s0

/-! ### Store error taxonomy (`store/store.go`) -/

/-- `ErrSessionNotFound`, `ErrSessionExists`, `ErrInvalidSessionData`,
`ErrInvalidStoredSessionData`, plus arbitrary backend errors. -/
inductive StoreErr
  | sessionNotFound
  | sessionExists
  | invalidSessionData
  | invalidStoredSessionData
  | backend (code : Nat)
deriving DecidableEq

/-! ### Sessions and the manager (`session.go`) -/

/-- `session.Session[D]`: `Data *D` is an optional payload (`none` for a
pre-session); `Expiration` is a `time.Time`, modelled as integer
nanoseconds. -/
structure Session (D : Type) where
  id : List Char
  data : Option D
  expiration : ℤ
  csrfToken : List Char
deriving DecidableEq

/-- `session.deriveKeys`: HKDF-SHA256 (package `golang.org/x/crypto/hkdf`,
external to this repository) is modelled by opaque `extract` and `expand`
parameters; one 32-byte key is expanded from the common PRK per context
string.  The `io.ReadFull` error path cannot occur for 32-byte reads and
is not modelled. -/
def deriveKeys (extract : List Nat → List Nat) (expand : List Nat → List Char → List Nat)
    (ikm : List Nat) (infos : List (List Char)) : List (List Nat) :=
  infos.map fun info => expand (extract ikm) info

/-- The two context strings passed by `NewManager`. -/
def managerKeyInfos : List (List Char) := [("session-token").toList, ("csrf-token").toList]

/-- The session-token-role key `keys[0]` held by `Manager.sta`. -/
def managerSTAKey (extract : List Nat → List Nat) (expand : List Nat → List Char → List Nat)
    (key : List Nat) : List Nat :=
  (deriveKeys extract expand key managerKeyInfos).getD 0 []

/-- The CSRF-role key `keys[1]` held by `Manager.cta`. -/
def managerCTAKey (extract : List Nat → List Nat) (expand : List Nat → List Char → List Nat)
    (key : List Nat) : List Nat :=
  (deriveKeys extract expand key managerKeyInfos).getD 1 []

/-- The two distinguishable failures of `Manager.VerifySessionCSRFToken`:
the wrapped `cta.Verify` error, or the token/session mismatch. -/
inductive CSRFErr
  | tokenVerification (e : TokenErr)
  | sessionMismatch
deriving DecidableEq

/-- `Manager.VerifySessionCSRFToken`: verify the token under the CSRF-role
authenticator, then require exact equality with `s.CSRFToken`. -/
def verifySessionCSRFToken {D : Type} (mac : List Nat → List Char → List Nat)
    (extract : List Nat → List Nat) (expand : List Nat → List Char → List Nat)
    (key : List Nat) (token : List Char) (s : Session D) : Except CSRFErr Unit :=
  match authVerify mac (managerCTAKey extract expand key) token with
  | .error e => .error (.tokenVerification e)
  | .ok _ => if token ≠ s.csrfToken then .error .sessionMismatch else .ok ()

/-- `errExpiredSession`, or a store error passed through by `lookup`. -/
inductive LookupErr
  | storeFailure (e : StoreErr)
  | expiredSession
deriving DecidableEq

/-- `Manager.lookup`: `store.Get`, then the session is expired iff its
`Expiration` is strictly before the clock reading (`time.Time.Before`).
The store is abstracted as its `Get` result. -/
def managerLookup {D : Type} (get : List Char → Except StoreErr (Session D)) (now : ℤ)
    (sid : List Char) : Except LookupErr (Session D) :=
  match get sid with
  | .error e => .error (.storeFailure e)
  | .ok s => if s.expiration < now then .error .expiredSession else .ok s

/-- `sessionStorageGracePeriod = 10 * time.Minute`, in nanoseconds. -/
def sessionStorageGracePeriod : ℤ := 600000000000

/-- `sessionCookieGracePeriod = 10 * time.Minute`, in nanoseconds. -/
def sessionCookieGracePeriod : ℤ := 600000000000

/-- `defaultSessionCookieName`. -/
def sessionCookieName : List Char := ("session").toList

/-- The cookie attributes set by `CreateStrictCookie`. -/
structure Cookie where
  name : List Char
  value : List Char
  expires : ℤ
  secure : Bool
  httpOnly : Bool
  sameSiteStrict : Bool
deriving DecidableEq

/-- `session.CreateStrictCookie`. -/
def CreateStrictCookie (name value : List Char) (expires : ℤ) : Cookie :=
  ⟨name, value, expires, true, true, true⟩

/-- The session built by `Manager.Create`'s work closure on attempt `i`:
random payloads come from the streams `idData`/`csrfData`, the clock reads
`clock i`, and the two tokens are created under the role keys.
(`crypto/rand` failures, which the closure merely treats as one more
retryable failure, are not modelled.) -/
def createSessionAt {D : Type} (mac : List Nat → List Char → List Nat)
    (extract : List Nat → List Nat) (expand : List Nat → List Char → List Nat)
    (key : List Nat) (idData csrfData : Nat → List Nat) (clock : Nat → ℤ) (ttl : ℤ)
    (data : Option D) (i : Nat) : Session D :=
  { id := authCreate mac (managerSTAKey extract expand key) (idData i)
    data := data
    expiration := clock i + ttl
    csrfToken := authCreate mac (managerCTAKey extract expand key) (csrfData i) }

/-- `Manager.Create`'s work closure, as a `doLoop` work function over the
closure state `s` (Go's `var s *Session[D]`).  `setRes i` is the outcome
of `store.Set` on attempt `i` (the store is abstracted as this per-attempt
oracle): success stores `snew` in `s` and calls `rctx.Done()`;
`ErrInvalidSessionData` calls `rctx.Abort()`; every other error (including
`ErrSessionExists`) merely returns, counting as a retryable failure. -/
def createAttempt {D : Type} (setRes : Nat → Option StoreErr) (snew : Nat → Session D)
    (i : Nat) (s : Option (Session D)) : Option (Session D) × Bool × Bool :=
  match setRes i with
  | none => (some (snew i), true, false)
  | some .invalidSessionData => (s, false, true)
  | some _ => (s, false, false)

/-- What `Manager.Create` produces: the returned session (`none` on
error), the cookies written to the response, the number of attempts made,
and the retry error if `Do` failed. -/
structure CreateResult (D : Type) where
  session : Option (Session D)
  cookies : List Cookie
  calls : Nat
  retryErr : Option RetryErr

/-- `Manager.Create`: run the work closure under
`Backoff{Base: 100ms, Growth: 2.0, Jitter: 0.2}.Do(fn, 4)`; on success
write the SID cookie (name `"session"`, value `s.ID`, expiry
`Clock() + TTL + cookie grace`, with `tEnd` the clock reading at cookie
write time); on a `Do` error return the failure with no session and no
cookie.  The optional `OnCreate` hook is not modelled (`nil` default). -/
def managerCreate {D : Type} (mac : List Nat → List Char → List Nat)
    (extract : List Nat → List Nat) (expand : List Nat → List Char → List Nat)
    (key : List Nat) (idData csrfData : Nat → List Nat) (clock : Nat → ℤ) (ttl : ℤ)
    (data : Option D) (setRes : Nat → Option StoreErr) (u : Nat → ℚ) (tEnd : ℤ) :
    CreateResult D :=
  let snew := createSessionAt mac extract expand key idData csrfData clock ttl data
  let r := (Backoff.mk 100000000 2 (1 / 5)).Do (createAttempt setRes snew) u 4 none
  match r.out, r.state with
  | .ok _, some s =>
    ⟨some s, [CreateStrictCookie sessionCookieName s.id (tEnd + ttl + sessionCookieGracePeriod)],
      r.calls, none⟩
  | .ok _, none => ⟨none, [], r.calls, none⟩
  | .error e, _ => ⟨none, [], r.calls, some e⟩

/-! ### Eviction queue (`store/memory/eviction.go`, via `container/heap`) -/

/-- `memory.trackedItem`. -/
structure trackedItem where
  expires : ℤ
  key : List Char
deriving DecidableEq

/-- Default element for out-of-range slice reads; the code never indexes
out of range (Go would panic), and every use below is guarded. -/
def defaultTI : trackedItem := ⟨0, []⟩

/-- `trackedItems.Less(i, j) = ti[i].expires.Before(ti[j].expires)`. -/
def tiLess (a b : trackedItem) : Prop := a.expires < b.expires

instance (a b : trackedItem) : Decidable (tiLess a b) :=
  inferInstanceAs (Decidable (_ < _))

/-- `trackedItems.Swap`. -/
def listSwap (l : List trackedItem) (i j : Nat) : List trackedItem :=
  (l.set i (l.getD j defaultTI)).set j (l.getD i defaultTI)

/-- `container/heap`'s `up(h, j)` sift loop; the fuel bounds the number of
iterations (the parent index shrinks each step, so `j + 1` suffices). -/
def heapUp : Nat → List trackedItem → Nat → List trackedItem
  | 0, l, _ => l
  | fuel + 1, l, j =>
    let i := (j - 1) / 2
    if i = j ∨ ¬tiLess (l.getD j defaultTI) (l.getD i defaultTI) then l
    else heapUp fuel (listSwap l i j) i

/-- `container/heap`'s `down(h, i, n)` sift loop, with fuel. -/
def heapDown : Nat → List trackedItem → Nat → Nat → List trackedItem
  | 0, l, _, _ => l
  | fuel + 1, l, i, n =>
    let j1 := 2 * i + 1
    if n ≤ j1 then l
    else
      let j := if j1 + 1 < n ∧ tiLess (l.getD (j1 + 1) defaultTI) (l.getD j1 defaultTI)
        then j1 + 1 else j1
      if ¬tiLess (l.getD j defaultTI) (l.getD i defaultTI) then l
      else heapDown fuel (listSwap l i j) j n

/-- `memory.evictionQueue`: a wrapper around the `trackedItems` heap
slice. -/
structure evictionQueue where
  items : List trackedItem
deriving DecidableEq

/-- `newEvictionQueue` (`heap.Init` on the empty slice is a no-op). -/
def newEvictionQueue : evictionQueue := ⟨[]⟩

/-- `evictionQueue.Len`. -/
def evictionQueue.Len (q : evictionQueue) : Nat := q.items.length

/-- `evictionQueue.Peek = eq.items[0]` (callers guard with `Len() > 0`;
Go would panic on an empty queue, modelled by the default). -/
def evictionQueue.Peek (q : evictionQueue) : trackedItem := q.items.getD 0 defaultTI

/-- `evictionQueue.Push`: `heap.Push` appends and sifts up from the last
index. -/
def evictionQueue.Push (q : evictionQueue) (key : List Char) (expires : ℤ) : evictionQueue :=
  ⟨heapUp (q.items.length + 1) (q.items ++ [⟨expires, key⟩]) q.items.length⟩

/-- `evictionQueue.Pop`: `heap.Pop` swaps the root with the last element,
sifts the new root down within the shortened prefix, and removes and
returns the last element (the old minimum). -/
def evictionQueue.Pop (q : evictionQueue) : trackedItem × evictionQueue :=
  let n := q.items.length - 1
  let l1 := listSwap q.items 0 n
  let l2 := heapDown (n + 1) l1 0 n
  (l2.getD n defaultTI, ⟨l2.take n⟩)

/-! ### In-memory store (`store/memory/memory.go`) -/

/-- Go map read (`ms.items[sid]`): the item lists always have unique keys,
so an association-list lookup models the map. -/
def assocGet {S : Type} (items : List (List Char × S)) (sid : List Char) : Option S :=
  (items.find? fun p => decide (p.1 = sid)).map (·.2)

/-- Go map `delete(ms.items, sid)`. -/
def assocDel {S : Type} (items : List (List Char × S)) (sid : List Char) :
    List (List Char × S) :=
  items.filter fun p => decide (p.1 ≠ sid)

/-- `memory.Store[S]`: the `items` map plus the eviction queue.  The mutex
serialises access; operations are modelled as state transformers, clocks
passed explicitly (`ms.Clock()`). -/
structure MemStore (S : Type) where
  items : List (List Char × S)
  evictions : evictionQueue

/-- `memory.New`. -/
def memNew {S : Type} : MemStore S := ⟨[], newEvictionQueue⟩

/-- The `for ms.evictions.Len() > 0 && ms.evictions.Peek().expires.Before(t)`
loop of `Store.evict`: pop the queue minimum and delete that key from the
map, unconditionally.  Each iteration shortens the queue, so the initial
queue length is sufficient fuel. -/
def evictGo {S : Type} (t : ℤ) :
    Nat → evictionQueue → List (List Char × S) → evictionQueue × List (List Char × S)
  | 0, q, items => (q, items)
  | fuel + 1, q, items =>
    if 0 < q.Len ∧ q.Peek.expires < t then
      let (e, q') := q.Pop
      evictGo t fuel q' (assocDel items e.key)
    else (q, items)

/-- `Store.evict`. -/
def MemStore.evict {S : Type} (st : MemStore S) (t : ℤ) : MemStore S :=
  let (q, items) := evictGo t st.evictions.Len st.evictions st.items
  ⟨items, q⟩

/-- `Store.Get`: evict first, then read the map. -/
def MemStore.Get {S : Type} (st : MemStore S) (t : ℤ) (sid : List Char) :
    Except StoreErr S × MemStore S :=
  let st' := st.evict t
  match assocGet st'.items sid with
  | none => (.error .sessionNotFound, st')
  | some s => (.ok s, st')

/-- `Store.Set`: evict, fail with `ErrSessionExists` if the key is present,
otherwise insert the map entry and push a queue entry expiring at
`t + ttl`. -/
def MemStore.Set {S : Type} (st : MemStore S) (t : ℤ) (sid : List Char) (s : S) (ttl : ℤ) :
    Except StoreErr Unit × MemStore S :=
  let st' := st.evict t
  if (assocGet st'.items sid).isSome then (.error .sessionExists, st')
  else (.ok (), ⟨st'.items ++ [(sid, s)], st'.evictions.Push sid (t + ttl)⟩)

/-- `Store.Del`: evict, fail with `ErrSessionNotFound` if absent, otherwise
remove the map entry only — the queue entry is left to be discarded
lazily. -/
def MemStore.Del {S : Type} (st : MemStore S) (t : ℤ) (sid : List Char) :
    Except StoreErr Unit × MemStore S :=
  let st' := st.evict t
  if (assocGet st'.items sid).isSome then (.ok (), ⟨assocDel st'.items sid, st'.evictions⟩)
  else (.error .sessionNotFound, st')

/-! ### Concrete instantiations for witnesses and counterexamples -/

/-- A concrete stand-in for the opaque HMAC-SHA256 parameter (it is NOT
the real HMAC; witnesses only need some function with 32-byte outputs):
the key bytes and message bytes, zero-padded and truncated to 32 bytes. -/
def demoMac (key : List Nat) (msg : List Char) : List Nat :=
  ((key.map (· % 256) ++ msg.map (fun c => Char.toNat c % 256)) ++ List.replicate 32 0).take 32

/-- A concrete root key for witnesses. -/
def demoKey : List Nat := [1, 2, 3, 4]

/-- Concrete stand-in for HKDF-SHA256 `Extract`. -/
def demoExtract (ikm : List Nat) : List Nat := ikm.map (· % 256)

/-- Concrete stand-in for HKDF-SHA256 `Expand` (reading 32 bytes). -/
def demoExpand (prk : List Nat) (info : List Char) : List Nat :=
  ((prk ++ info.map (fun c => Char.toNat c % 256)) ++ List.replicate 32 0).take 32

/-- Flip bit `b` of the byte (character) `c`. -/
def flipBit (c : Char) (b : Nat) : Char := Char.ofNat (c.toNat ^^^ (1 <<< b))

/-- Push the given entries in order (`eq.Push(key, expires)` for each), as
the eviction-queue test does. -/
def pushSeq (entries : List trackedItem) : evictionQueue :=
  entries.foldl (fun q e => q.Push e.key e.expires) newEvictionQueue

/-- The `Peek()` observed after each successive `Push`, as in the
eviction-queue test. -/
def peekSeqGo (q : evictionQueue) : List trackedItem → List trackedItem
  | [] => []
  | e :: rest => (q.Push e.key e.expires).Peek :: peekSeqGo (q.Push e.key e.expires) rest

/-- `for eq.Len() > 0 { keys = append(keys, eq.Pop()) }`, collecting the
popped entries in order (with the queue length as fuel). -/
def popAllGo : Nat → evictionQueue → List trackedItem
  | 0, _ => []
  | fuel + 1, q => if 0 < q.Len then (q.Pop).1 :: popAllGo fuel (q.Pop).2 else []

/-- Pop everything off the queue, in order. -/
def popAll (q : evictionQueue) : List trackedItem := popAllGo q.Len q

/-! ### Supporting lemmas -/

theorem b64Char_mem (v : Nat) : b64Char v ∈ b64Alphabet := by
  unfold b64Char
  by_cases h : v < b64Alphabet.length
  · rw [List.getD_eq_getElem _ _ h]
    exact List.getElem_mem h
  · rw [List.getD_eq_default _ _ (le_of_not_lt h)]
    decide

theorem b64Index_b64Char : ∀ v : Nat, v < 64 → b64Index (b64Char v) = some v := by
  decide

/-- Every character emitted by the encoder is an alphabet character or the
padding character. -/
theorem base64urlEncode_chars (p : List Nat) (c : Char) (hc : c ∈ base64urlEncode p) :
    c ∈ b64Alphabet ∨ c = '=' := by
  induction p using base64urlEncode.induct with
  | case1 => simp [base64urlEncode] at hc
  | case2 b0 =>
    simp only [base64urlEncode, List.mem_cons, List.not_mem_nil, or_false] at hc
    rcases hc with h | h | h | h
    · exact Or.inl (h ▸ b64Char_mem _)
    · exact Or.inl (h ▸ b64Char_mem _)
    · exact Or.inr h
    · exact Or.inr h
  | case3 b0 b1 =>
    simp only [base64urlEncode, List.mem_cons, List.not_mem_nil, or_false] at hc
    rcases hc with h | h | h | h
    · exact Or.inl (h ▸ b64Char_mem _)
    · exact Or.inl (h ▸ b64Char_mem _)
    · exact Or.inl (h ▸ b64Char_mem _)
    · exact Or.inr h
  | case4 b0 b1 b2 rest ih =>
    simp only [base64urlEncode, List.mem_cons] at hc
    rcases hc with h | h | h | h | h
    · exact Or.inl (h ▸ b64Char_mem _)
    · exact Or.inl (h ▸ b64Char_mem _)
    · exact Or.inl (h ▸ b64Char_mem _)
    · exact Or.inl (h ▸ b64Char_mem _)
    · exact ih h

theorem base64urlEncode_length (p : List Nat) :
    (base64urlEncode p).length = (p.length + 2) / 3 * 4 := by
  induction p using base64urlEncode.induct with
  | case1 => simp [base64urlEncode]
  | case2 b0 => simp [base64urlEncode]
  | case3 b0 b1 => simp [base64urlEncode]
  | case4 b0 b1 b2 rest ih =>
    simp only [base64urlEncode, List.length_cons, ih]
    omega

theorem b64Char_ne_pad (v : Nat) : b64Char v ≠ '=' := by
  intro h
  have := b64Char_mem v
  rw [h] at this
  revert this
  decide

/-- Decoding inverts encoding on byte sequences. -/
theorem base64urlDecodeQuanta_encode (p : List Nat) (hp : ∀ b ∈ p, b < 256) :
    base64urlDecodeQuanta (base64urlEncode p) = some p := by
  induction p using base64urlEncode.induct with
  | case1 => rfl
  | case2 b0 =>
    have h0 : b0 < 256 := hp b0 (by simp)
    simp only [base64urlEncode, base64urlDecodeQuanta,
      b64Index_b64Char _ (by omega : b0 / 4 < 64),
      b64Index_b64Char _ (by omega : b0 % 4 * 16 < 64)]
    simp only [List.cons.injEq, and_true]
    simp
    omega
  | case3 b0 b1 =>
    have h0 : b0 < 256 := hp b0 (by simp)
    have h1 : b1 < 256 := hp b1 (by simp)
    simp only [base64urlEncode, base64urlDecodeQuanta,
      b64Index_b64Char _ (by omega : b0 / 4 < 64),
      b64Index_b64Char _ (by omega : b0 % 4 * 16 + b1 / 16 < 64),
      b64Index_b64Char _ (by omega : b1 % 16 * 4 < 64)]
    simp [b64Char_ne_pad]
    omega
  | case4 b0 b1 b2 rest ih =>
    have h0 : b0 < 256 := hp b0 (by simp)
    have h1 : b1 < 256 := hp b1 (by simp)
    have h2 : b2 < 256 := hp b2 (by simp)
    have hrest : ∀ b ∈ rest, b < 256 := fun b hb => hp b (by simp [hb])
    simp only [base64urlEncode, base64urlDecodeQuanta,
      b64Index_b64Char _ (by omega : b0 / 4 < 64),
      b64Index_b64Char _ (by omega : b0 % 4 * 16 + b1 / 16 < 64),
      b64Index_b64Char _ (by omega : b1 % 16 * 4 + b2 / 64 < 64),
      b64Index_b64Char _ (by omega : b2 % 64 < 64)]
    simp [b64Char_ne_pad, ih hrest]
    omega

theorem b64Alphabet_no_crlf : ∀ c ∈ b64Alphabet, (!(c == '\r' || c == '\n')) = true := by
  decide

theorem base64urlEncode_no_crlf (p : List Nat) (c : Char) (hc : c ∈ base64urlEncode p) :
    (!(c == '\r' || c == '\n')) = true := by
  rcases base64urlEncode_chars p c hc with h | h
  · exact b64Alphabet_no_crlf c h
  · subst h
    decide

theorem base64urlDecode_encode (p : List Nat) (hp : ∀ b ∈ p, b < 256) :
    base64urlDecode (base64urlEncode p) = some p := by
  unfold base64urlDecode
  rw [List.filter_eq_self.mpr (base64urlEncode_no_crlf p)]
  exact base64urlDecodeQuanta_encode p hp

/-! ### Parsing lemmas for the v0 wire format -/

theorem strIndex_eq_none {s : List Char} {c : Char} (h : c ∉ s) : strIndex s c = none := by
  induction s with
  | nil => rfl
  | cons x xs ih =>
    simp only [List.mem_cons, not_or] at h
    simp [strIndex, Ne.symm h.1, ih h.2]

theorem strIndex_append {A s : List Char} {c : Char} (h : c ∉ A) :
    strIndex (A ++ s) c = (strIndex s c).map (· + A.length) := by
  induction A with
  | nil => cases hx : strIndex s c <;> simp [hx]
  | cons x xs ih =>
    simp only [List.mem_cons, not_or] at h
    have hstep : strIndex (x :: xs ++ s) c
        = if x = c then some 0 else (strIndex (xs ++ s) c).map (· + 1) := rfl
    rw [hstep, if_neg (Ne.symm h.1), ih h.2]
    cases strIndex s c with
    | none => rfl
    | some v =>
      simp
      omega

theorem strIndex_sep {A B : List Char} {c : Char} (hA : c ∉ A) :
    strIndex (A ++ c :: B) c = some A.length := by
  rw [strIndex_append hA]
  simp [strIndex]

theorem strContains_eq_false {s : List Char} {c : Char} (h : c ∉ s) :
    strContains s c = false := by
  simp [strContains, strIndex_eq_none h]

theorem uniqueIndex_sep {A B : List Char} {c : Char} (hA : c ∉ A) (hB : c ∉ B) :
    uniqueIndex (A ++ c :: B) c = .ok A.length := by
  have hdrop : (A ++ c :: B).drop (A.length + 1) = B := by
    rw [← List.drop_drop, List.drop_left]
    rfl
  simp [uniqueIndex, strIndex_sep hA, hdrop, strContains_eq_false hB]

theorem base64urlEncode_not_mem {p : List Nat} {c : Char}
    (hc : c ∉ b64Alphabet) (hpad : c ≠ '=') : c ∉ base64urlEncode p := by
  intro hmem
  rcases base64urlEncode_chars p c hmem with h | h
  · exact hc h
  · exact hpad h

theorem drop_append_cons (A B : List Char) (c : Char) :
    (A ++ c :: B).drop (A.length + 1) = B := by
  rw [← List.drop_drop, List.drop_left]
  rfl

/-- Verification of a token assembled from the v0 wire pieces: a version
header, a payload segment free of separator characters, and a footer that
is the base64url encoding of a 32-byte MAC value `m`.  The outcome is
decided by the MAC comparison first and the payload decode second. -/
theorem v0.Verify_structured (mac : List Nat → List Char → List Nat) (key : List Nat)
    (P : List Char) (m : List Nat)
    (hP1 : '!' ∉ P) (hP2 : '.' ∉ P)
    (hmlen : m.length = 32) (hmb : ∀ b ∈ m, b < 256) :
    v0.Verify mac key (['v', '0', '!'] ++ P ++ '.' :: base64urlEncode m)
      = if mac key (['v', '0', '!'] ++ P) = m then
          match base64urlDecode P with
          | none => .error .badToken
          | some data => .ok data
        else .error .invalidToken := by
  have hM1 : '!' ∉ base64urlEncode m := base64urlEncode_not_mem (by decide) (by decide)
  have hM2 : '.' ∉ base64urlEncode m := base64urlEncode_not_mem (by decide) (by decide)
  have hMlen : (base64urlEncode m).length = 44 := by
    rw [base64urlEncode_length, hmlen]
  have h1 : uniqueIndex (['v', '0', '!'] ++ P ++ '.' :: base64urlEncode m)
      versionHeaderSeparator = .ok 2 := by
    have := uniqueIndex_sep (A := ['v', '0']) (B := P ++ '.' :: base64urlEncode m)
      (c := '!') (by decide)
      (by
        simp only [List.mem_append, List.mem_cons, not_or]
        exact ⟨hP1, by decide, hM1⟩)
    simpa [versionHeaderSeparator] using this
  have h2 : uniqueIndex (['v', '0', '!'] ++ P ++ '.' :: base64urlEncode m)
      macFooterSeparator = .ok (3 + P.length) := by
    have h := uniqueIndex_sep (A := ['v', '0', '!'] ++ P) (B := base64urlEncode m)
      (c := '.')
      (by
        simp only [List.mem_append, List.mem_cons, not_or]
        exact ⟨by decide, hP2⟩)
      hM2
    rw [List.length_append] at h
    exact h
  have hlen3 : 3 + P.length = (['v', '0', '!'] ++ P).length := by
    rw [List.length_append]
    rfl
  have hjlen : (['v', '0', '!'] ++ P ++ '.' :: base64urlEncode m).length
      = 3 + P.length + (1 + 44) := by
    simp [hMlen]
    omega
  have htake : (['v', '0', '!'] ++ P ++ '.' :: base64urlEncode m).take (3 + P.length)
      = ['v', '0', '!'] ++ P := by
    rw [hlen3, List.take_left]
  have hdropm : (['v', '0', '!'] ++ P ++ '.' :: base64urlEncode m).drop (3 + P.length + 1)
      = base64urlEncode m := by
    rw [hlen3, drop_append_cons]
  unfold v0.Verify
  rw [h1, h2]
  simp only [hjlen, htake, hdropm, base64MACLen]
  have hver : (['v', '0', '!'] ++ P ++ '.' :: base64urlEncode m).take 2 = v0.Version := rfl
  rw [hver, if_neg (by simp), if_neg (by omega)]
  rw [base64urlDecode_encode m hmb]
  have hdropP : (['v', '0', '!'] ++ P).drop (2 + 1) = P := rfl
  by_cases hmac : mac key (['v', '0', '!'] ++ P) = m
  · simp [hmac, hdropP]
  · simp [hmac]

/-! ### Claim C1 (token round-trip) -/

/-- Claim C1: for every key `k` and every payload byte sequence `p`,
verifying a token produced by the v0 token codec with the same key returns
exactly `p`: `Verify(k, Create(k, p)) = p`.  The opaque MAC is assumed to
return 32 bytes (as HMAC-SHA256 does) on the one message involved. -/
theorem claim_c1_roundtrip (mac : List Nat → List Char → List Nat) (key p : List Nat)
    (hp : ∀ b ∈ p, b < 256)
    (hmlen : (mac key (['v', '0', '!'] ++ base64urlEncode p)).length = 32)
    (hmb : ∀ b ∈ mac key (['v', '0', '!'] ++ base64urlEncode p), b < 256) :
    v0.Verify mac key (v0.Create mac key p) = .ok p := by
  have hP1 : '!' ∉ base64urlEncode p := base64urlEncode_not_mem (by decide) (by decide)
  have hP2 : '.' ∉ base64urlEncode p := base64urlEncode_not_mem (by decide) (by decide)
  have hcreate : v0.Create mac key p
      = ['v', '0', '!'] ++ base64urlEncode p
        ++ '.' :: base64urlEncode (mac key (['v', '0', '!'] ++ base64urlEncode p)) := by
    simp [v0.Create, v0.Version, versionHeaderSeparator, macFooterSeparator]
  rw [hcreate, v0.Verify_structured mac key _ _ hP1 hP2 hmlen hmb, if_pos rfl,
    base64urlDecode_encode p hp]

/-- Claim C1 witness: the round-trip theorem applied at a concrete MAC
function, key, and the payload `"hello"`. -/
theorem claim_c1_roundtrip_witness :
    (∀ b ∈ [104, 101, 108, 108, 111], b < 256)
      ∧ (demoMac demoKey
          (['v', '0', '!'] ++ base64urlEncode [104, 101, 108, 108, 111])).length = 32
      ∧ (∀ b ∈ demoMac demoKey
          (['v', '0', '!'] ++ base64urlEncode [104, 101, 108, 108, 111]), b < 256)
      ∧ v0.Verify demoMac demoKey (v0.Create demoMac demoKey [104, 101, 108, 108, 111])
          = .ok [104, 101, 108, 108, 111] :=
  ⟨by decide, by decide, by decide,
    claim_c1_roundtrip demoMac demoKey [104, 101, 108, 108, 111]
      (by decide) (by decide) (by decide)⟩

/-! ### Claim C3 (tamper sensitivity) -/

theorem set_append_left {l1 l2 : List Char} {n : Nat} (h : n < l1.length) (c : Char) :
    (l1 ++ l2).set n c = l1.set n c ++ l2 := by
  induction l1 generalizing n with
  | nil => simp at h
  | cons x xs ih =>
    cases n with
    | zero => simp
    | succ k =>
      have hstep : (x :: (xs ++ l2)).set (k + 1) c = x :: (xs ++ l2).set k c := rfl
      simp only [List.cons_append, hstep, ih (by simpa using h)]
      rfl

/-- Claim C3 (amended): flipping a single bit of a byte of the payload
segment of a created token makes `Verify` fail with the authenticity error
`ErrInvalidToken` — provided the flipped character is not one of the
separator characters `'!'`/`'.'` (in which case parsing fails structurally
with `ErrBadToken` instead, as the counterexample shows) and the MAC
distinguishes the altered message from the original. -/
theorem claim_c3_payload_bitflip (mac : List Nat → List Char → List Nat) (key p : List Nat)
    (q b : Nat) (hq : q < (base64urlEncode p).length) (hb : b < 8)
    (hmlen : (mac key (['v', '0', '!'] ++ base64urlEncode p)).length = 32)
    (hmb : ∀ x ∈ mac key (['v', '0', '!'] ++ base64urlEncode p), x < 256)
    (hc1 : flipBit ((base64urlEncode p).getD q 'A') b ≠ '!')
    (hc2 : flipBit ((base64urlEncode p).getD q 'A') b ≠ '.')
    (hmacne :
      mac key (['v', '0', '!'] ++
          (base64urlEncode p).set q (flipBit ((base64urlEncode p).getD q 'A') b))
        ≠ mac key (['v', '0', '!'] ++ base64urlEncode p)) :
    v0.Verify mac key
        ((v0.Create mac key p).set (q + 3) (flipBit ((base64urlEncode p).getD q 'A') b))
      = .error .invalidToken := by
  set c' := flipBit ((base64urlEncode p).getD q 'A') b with hcdef
  have hP1 : '!' ∉ (base64urlEncode p).set q c' := by
    intro hmem
    rcases List.mem_or_eq_of_mem_set hmem with hmem' | heq
    · exact base64urlEncode_not_mem (by decide) (by decide) hmem'
    · exact hc1 heq.symm
  have hP2 : '.' ∉ (base64urlEncode p).set q c' := by
    intro hmem
    rcases List.mem_or_eq_of_mem_set hmem with hmem' | heq
    · exact base64urlEncode_not_mem (by decide) (by decide) hmem'
    · exact hc2 heq.symm
  have hflip : (v0.Create mac key p).set (q + 3) c'
      = ['v', '0', '!'] ++ (base64urlEncode p).set q c'
        ++ '.' :: base64urlEncode (mac key (['v', '0', '!'] ++ base64urlEncode p)) := by
    have h1 : v0.Create mac key p
        = 'v' :: '0' :: '!' ::
            (base64urlEncode p ++
              '.' :: base64urlEncode (mac key (['v', '0', '!'] ++ base64urlEncode p))) := by
      simp [v0.Create, v0.Version, versionHeaderSeparator, macFooterSeparator]
    have h2 : ('v' :: '0' :: '!' ::
          (base64urlEncode p ++
            '.' :: base64urlEncode (mac key (['v', '0', '!'] ++ base64urlEncode p)))).set
          (q + 3) c'
        = 'v' :: '0' :: '!' ::
            ((base64urlEncode p ++
              '.' :: base64urlEncode (mac key (['v', '0', '!'] ++ base64urlEncode p))).set
              q c') := rfl
    rw [h1, h2, set_append_left hq]
    simp
  rw [hflip, v0.Verify_structured mac key _ _ hP1 hP2 hmlen hmb, if_neg hmacne]

/-- Claim C3 counterexample (as stated, the claim is false): in the token
for payload `"hello"`, the first payload-segment character is `'a'`;
flipping its bit 6 yields the version separator `'!'`, and `Verify` then
fails with the structural `ErrBadToken`, not the authenticity error
`ErrInvalidToken` the claim requires. -/
theorem claim_c3_counterexample :
    (v0.Create demoMac demoKey [104, 101, 108, 108, 111]).getD 3 'A' = 'a'
      ∧ flipBit 'a' 6 = '!'
      ∧ v0.Verify demoMac demoKey
          ((v0.Create demoMac demoKey [104, 101, 108, 108, 111]).set (0 + 3)
            (flipBit ((base64urlEncode [104, 101, 108, 108, 111]).getD 0 'A') 6))
          = .error .badToken
      ∧ TokenErr.badToken ≠ TokenErr.invalidToken := by decide

/-! ### Claim C4 (structural checks versus MAC comparison) -/

/-- Claim C4 (amended): the separator, version, and MAC-footer checks
(including the MAC segment's decode) do precede the MAC comparison, but
the payload segment is decoded only *after* the MAC comparison: for a
well-framed token whose payload segment fails base64url decoding, `Verify`
returns the structural `ErrBadToken` when the MAC matches and the
authenticity error `ErrInvalidToken` when it does not — not a structural
error regardless of the MAC. -/
theorem claim_c4_payload_decode_after_mac (mac : List Nat → List Char → List Nat)
    (key : List Nat) (s : List Char) (m : List Nat)
    (hs1 : '!' ∉ s) (hs2 : '.' ∉ s) (hdec : base64urlDecode s = none)
    (hmlen : m.length = 32) (hmb : ∀ x ∈ m, x < 256) :
    v0.Verify mac key (['v', '0', '!'] ++ s ++ '.' :: base64urlEncode m)
      = if mac key (['v', '0', '!'] ++ s) = m then .error .badToken
        else .error .invalidToken := by
  rw [v0.Verify_structured mac key s m hs1 hs2 hmlen hmb, hdec]

/-- Claim C4 counterexample (as stated, the claim is false): the payload
segment `"*GVsbG8="` fails base64url decoding, yet with a MAC footer that
does not match the recomputed MAC, `Verify` reports the authenticity error
`ErrInvalidToken`, not a structural error — the MAC comparison happens
before the payload decode. -/
theorem claim_c4_counterexample :
    base64urlDecode ['*', 'G', 'V', 's', 'b', 'G', '8', '='] = none
      ∧ v0.Verify demoMac demoKey
          (['v', '0', '!'] ++ ['*', 'G', 'V', 's', 'b', 'G', '8', '=']
            ++ '.' :: base64urlEncode (List.replicate 32 1))
          = .error .invalidToken
      ∧ TokenErr.invalidToken ≠ TokenErr.badToken := by decide

/-! ### Claim C2 (CSRF token binding) -/

/-- Claim C2: `VerifySessionCSRFToken(token, s)` succeeds exactly when the
token verifies under the CSRF-role authenticator key — expanded from the
root key with the `"csrf-token"` context string — and is string-equal to
`s.CSRFToken`; consequently a well-formed, authentic CSRF token bound to
session A fails against any session B with a different `CSRFToken`,
reporting the session-mismatch error. -/
theorem claim_c2_csrf_binding {D : Type} (mac : List Nat → List Char → List Nat)
    (extract : List Nat → List Nat) (expand : List Nat → List Char → List Nat)
    (key : List Nat) :
    (∀ (tok : List Char) (s : Session D),
      verifySessionCSRFToken mac extract expand key tok s = .ok ()
        ↔ ((∃ d, authVerify mac (expand (extract key) (("csrf-token").toList)) tok = .ok d)
            ∧ tok = s.csrfToken))
    ∧ (∀ (sA sB : Session D) (d : List Nat),
        authVerify mac (expand (extract key) (("csrf-token").toList)) sA.csrfToken = .ok d →
        sA.csrfToken ≠ sB.csrfToken →
        verifySessionCSRFToken mac extract expand key sA.csrfToken sB
          = .error .sessionMismatch) := by
  have hkey : managerCTAKey extract expand key
      = expand (extract key) (("csrf-token").toList) := rfl
  constructor
  · intro tok s
    unfold verifySessionCSRFToken
    rw [hkey]
    cases hv : authVerify mac (expand (extract key) (("csrf-token").toList)) tok with
    | error e => simp [hv]
    | ok d =>
      by_cases he : tok = s.csrfToken
      · simp [he]
      · simp [he]
  · intro sA sB d hv hne
    unfold verifySessionCSRFToken
    rw [hkey, hv]
    simp [hne]

/-- Claim C2 witness: with concrete MAC/HKDF stand-ins, the token created
for session A (payload `[9, 9, 9]`) is authentic under the CSRF-role key
yet fails `VerifySessionCSRFToken` against session B (empty `CSRFToken`)
with the mismatch error. -/
theorem claim_c2_csrf_binding_witness :
    (authVerify demoMac (demoExpand (demoExtract demoKey) (("csrf-token").toList))
        (authCreate demoMac (managerCTAKey demoExtract demoExpand demoKey) [9, 9, 9])
        = .ok [9, 9, 9])
      ∧ (authCreate demoMac (managerCTAKey demoExtract demoExpand demoKey) [9, 9, 9]
          ≠ ([] : List Char))
      ∧ verifySessionCSRFToken demoMac demoExtract demoExpand demoKey
          (authCreate demoMac (managerCTAKey demoExtract demoExpand demoKey) [9, 9, 9])
          (⟨[], none, 0, []⟩ : Session Nat)
          = .error .sessionMismatch :=
  ⟨by decide, by decide,
    (claim_c2_csrf_binding demoMac demoExtract demoExpand demoKey).2
      ⟨[], none, 0, authCreate demoMac (managerCTAKey demoExtract demoExpand demoKey) [9, 9, 9]⟩
      ⟨[], none, 0, []⟩ [9, 9, 9] (by decide) (by decide)⟩

/-! ### Claims C8 and C10 (retry backoff) -/

theorem ratTrunc_eq_floor {q : ℚ} (h : 0 ≤ q) : ratTrunc q = ⌊q⌋ := by
  unfold ratTrunc
  rw [Rat.floor_def]
  obtain ⟨m, hm⟩ := Int.eq_ofNat_of_zero_le (Rat.num_nonneg.mpr h)
  rw [hm]
  show Int.tdiv (Int.ofNat m) (Int.ofNat q.den) = Int.ofNat m / Int.ofNat q.den
  rw [show Int.tdiv (Int.ofNat m) (Int.ofNat q.den) = Int.ofNat (m / q.den) from rfl]
  exact Int.ofNat_div m q.den

theorem scale_floor (d : ℤ) (f : ℚ) (hd : 0 ≤ d) (hf : 0 ≤ f) :
    scale d f = ⌊(d : ℚ) * f⌋ :=
  ratTrunc_eq_floor (mul_nonneg (by exact_mod_cast hd) hf)

theorem scale_bounds {d : ℤ} {f : ℚ} (hd : 0 ≤ d) (hf0 : 0 ≤ f)
    {zlo zhi : ℤ} (hlo : (zlo : ℚ) ≤ (d : ℚ) * f) (hhi : (d : ℚ) * f < (zhi : ℚ) + 1) :
    zlo ≤ scale d f ∧ scale d f ≤ zhi := by
  rw [scale_floor d f hd hf0]
  refine ⟨Int.le_floor.mpr hlo, ?_⟩
  have h2 : ⌊(d : ℚ) * f⌋ < zhi + 1 := Int.floor_lt.mpr (by push_cast; exact hhi)
  omega

/-- Claim C10: for every valid backoff policy (`Growth ≥ 1`, `Jitter` in
`[0, 1]`) and every work function, `Do(fn, n)` with attempt budget
`n ≤ 0` returns the exhausted-attempts error without ever invoking `fn`
and without sleeping. -/
theorem claim_c10_nonpositive_budget {σ : Type} (b : Backoff)
    (hg : 1 ≤ b.growth) (hj0 : 0 ≤ b.jitter) (hj1 : b.jitter ≤ 1)
    (fn : Nat → σ → σ × Bool × Bool) (u : Nat → ℚ) (s0 : σ) (n : ℤ) (hn : n ≤ 0) :
    b.Do fn u n s0 = ⟨.error .exhausted, s0, 0, []⟩ := by
  have hv : b.validate = none := by
    unfold Backoff.validate
    rw [if_neg (not_lt.mpr hg), if_neg (not_lt.mpr hj0), if_neg (not_lt.mpr hj1)]
  unfold Backoff.Do
  rw [hv, Int.toNat_of_nonpos hn]
  rfl

/-- Claim C10 witness: the theorem applied to the policy
`{Base: 100ns, Growth: 1, Jitter: 0}` and budget `-3`. -/
theorem claim_c10_nonpositive_budget_witness :
    (1 : ℚ) ≤ 1 ∧ (0 : ℚ) ≤ 0 ∧ (0 : ℚ) ≤ 1 ∧ (-3 : ℤ) ≤ 0
      ∧ (Backoff.mk 100 1 0).Do (fun _ s => (s, false, false)) (fun _ => 0) (-3) (0 : Nat)
          = ⟨.error .exhausted, 0, 0, []⟩ :=
  ⟨le_refl 1, le_refl 0, zero_le_one, by decide,
    claim_c10_nonpositive_budget (Backoff.mk 100 1 0) (le_refl 1) (le_refl 0) zero_le_one
      (fun _ s => (s, false, false)) (fun _ => 0) 0 (-3) (by decide)⟩

/-- Claim C8: for `Backoff{Base: 100ms, Growth: 1.2, Jitter: 0.1}` and a
work function that never reports `Done` or `Abort`, `Do` with a 4-attempt
budget makes exactly 4 attempts, sleeps exactly 3 times (never after the
final attempt), exhausts, and for every jitter draw the sleep after
attempt 2 lies in `[108ms, 132ms]` and the sleep after attempt 3 lies in
`[129.6ms, 158.4ms]` (nanoseconds; `float64` idealised as exact
rationals). -/
theorem claim_c8_backoff_intervals {σ : Type} (fn : Nat → σ → σ × Bool × Bool)
    (hfn : ∀ i s, ∃ s', fn i s = (s', false, false))
    (u : Nat → ℚ) (hu : ∀ i, 0 ≤ u i ∧ u i < 1) (s0 : σ) :
    (((Backoff.mk 100000000 (12 / 10) (1 / 10)).Do fn u 4 s0).calls = 4
        ∧ ((Backoff.mk 100000000 (12 / 10) (1 / 10)).Do fn u 4 s0).out = .error .exhausted
        ∧ ((Backoff.mk 100000000 (12 / 10) (1 / 10)).Do fn u 4 s0).sleeps.length = 3)
      ∧ (108000000 ≤ ((Backoff.mk 100000000 (12 / 10) (1 / 10)).Do fn u 4 s0).sleeps.getD 1 0
        ∧ ((Backoff.mk 100000000 (12 / 10) (1 / 10)).Do fn u 4 s0).sleeps.getD 1 0 ≤ 132000000)
      ∧ (129600000 ≤ ((Backoff.mk 100000000 (12 / 10) (1 / 10)).Do fn u 4 s0).sleeps.getD 2 0
        ∧ ((Backoff.mk 100000000 (12 / 10) (1 / 10)).Do fn u 4 s0).sleeps.getD 2 0
            ≤ 158400000) := by
  obtain ⟨s1, hs1⟩ := hfn 1 s0
  obtain ⟨s2, hs2⟩ := hfn 2 s1
  obtain ⟨s3, hs3⟩ := hfn 3 s2
  obtain ⟨s4, hs4⟩ := hfn 4 s3
  have hval : (Backoff.mk 100000000 (12 / 10) (1 / 10)).validate = none := by
    unfold Backoff.validate
    norm_num
  have hd2 : scale 100000000 ((Backoff.mk 100000000 (12 / 10) (1 / 10)).growth)
      = 120000000 := by
    rw [scale_floor _ _ (by norm_num) (by norm_num)]
    rw [show ((100000000 : ℤ) : ℚ) * (Backoff.mk 100000000 (12 / 10) (1 / 10)).growth
      = ((120000000 : ℤ) : ℚ) from by norm_num]
    exact Int.floor_intCast _
  have hd3 : scale 120000000 ((Backoff.mk 100000000 (12 / 10) (1 / 10)).growth)
      = 144000000 := by
    rw [scale_floor _ _ (by norm_num) (by norm_num)]
    rw [show ((120000000 : ℤ) : ℚ) * (Backoff.mk 100000000 (12 / 10) (1 / 10)).growth
      = ((144000000 : ℤ) : ℚ) from by norm_num]
    exact Int.floor_intCast _
  have hrun : (Backoff.mk 100000000 (12 / 10) (1 / 10)).Do fn u 4 s0
      = ⟨.error .exhausted, s4, 4,
          [scale 100000000 (1 + 1 / 10 * (2 * u 1 - 1)),
           scale 120000000 (1 + 1 / 10 * (2 * u 2 - 1)),
           scale 144000000 (1 + 1 / 10 * (2 * u 3 - 1))]⟩ := by
    unfold Backoff.Do
    rw [hval]
    show doLoop fn u _ 1 4 100000000 s0 = _
    simp only [doLoop, hs1, hs2, hs3, hs4, hd2, hd3]
    simp
  rw [hrun]
  have hfac : ∀ i : Nat, 0 ≤ 1 + 1 / 10 * (2 * u i - 1) ∧ 9 / 10 ≤ 1 + 1 / 10 * (2 * u i - 1)
      ∧ 1 + 1 / 10 * (2 * u i - 1) < 11 / 10 := by
    intro i
    obtain ⟨h0, h1⟩ := hu i
    constructor
    · linarith
    constructor
    · linarith
    · linarith
  have hb2 : 108000000 ≤ scale 120000000 (1 + 1 / 10 * (2 * u 2 - 1))
      ∧ scale 120000000 (1 + 1 / 10 * (2 * u 2 - 1)) ≤ 132000000 := by
    obtain ⟨hf0, hlo, hhi⟩ := hfac 2
    exact scale_bounds (by norm_num) hf0
      (by push_cast; nlinarith) (by push_cast; nlinarith)
  have hb3 : 129600000 ≤ scale 144000000 (1 + 1 / 10 * (2 * u 3 - 1))
      ∧ scale 144000000 (1 + 1 / 10 * (2 * u 3 - 1)) ≤ 158400000 := by
    obtain ⟨hf0, hlo, hhi⟩ := hfac 3
    exact scale_bounds (by norm_num) hf0
      (by push_cast; nlinarith) (by push_cast; nlinarith)
  refine ⟨⟨rfl, rfl, rfl⟩, ?_, ?_⟩
  · exact hb2
  · exact hb3

/-- Claim C8 witness: the interval theorem applied to a concrete work
function (never `Done`/`Abort`), the constant jitter draw `0`, and a
concrete initial state. -/
theorem claim_c8_backoff_intervals_witness :
    (∀ (i : Nat) (s : Nat), ∃ s',
        (fun (_ : Nat) (s : Nat) => (s, false, false)) i s = (s', false, false))
      ∧ (∀ _i : Nat, (0 : ℚ) ≤ 0 ∧ (0 : ℚ) < 1)
      ∧ ((Backoff.mk 100000000 (12 / 10) (1 / 10)).Do
          (fun (_ : Nat) (s : Nat) => (s, false, false)) (fun _ => (0 : ℚ)) 4 0).calls = 4 :=
  ⟨fun _ s => ⟨s, rfl⟩, fun _ => ⟨le_refl 0, zero_lt_one⟩,
    (claim_c8_backoff_intervals (fun _ s => (s, false, false)) (fun _ s => ⟨s, rfl⟩)
      (fun _ => 0) (fun _ => ⟨le_refl 0, zero_lt_one⟩) 0).1.1⟩

/-! ### Claim C6 (Manager.Create retry protocol) -/

theorem createAttempt_fail {D : Type} (setRes : Nat → Option StoreErr)
    (snew : Nat → Session D) (i : Nat) (s : Option (Session D)) (e : StoreErr)
    (h : setRes i = some e) (hne : e ≠ .invalidSessionData) :
    createAttempt setRes snew i s = (s, false, false) := by
  unfold createAttempt
  rw [h]
  cases e
  · rfl
  · rfl
  · exact absurd rfl hne
  · rfl
  · rfl

theorem createAttempt_abort {D : Type} (setRes : Nat → Option StoreErr)
    (snew : Nat → Session D) (i : Nat) (s : Option (Session D))
    (h : setRes i = some .invalidSessionData) :
    createAttempt setRes snew i s = (s, false, true) := by
  unfold createAttempt
  rw [h]

theorem createAttempt_ok {D : Type} (setRes : Nat → Option StoreErr)
    (snew : Nat → Session D) (i : Nat) (s : Option (Session D))
    (h : setRes i = none) :
    createAttempt setRes snew i s = (some (snew i), true, false) := by
  unfold createAttempt
  rw [h]

/-- Claim C6: `Manager.Create` (a) treats every `Store.Set` failure other
than `InvalidData` — `Exists` included — as retryable, and after its fixed
4-attempt budget is exhausted under persistent failure returns a terminal
creation error with no session and no cookie; (b) after `InvalidData` on
attempt `k` it aborts immediately, making no further attempts; and (c)
after an `Exists` failure it retries and can succeed on the next attempt,
then writing the SID cookie. -/
theorem claim_c6_create_retry_protocol {D : Type} (mac : List Nat → List Char → List Nat)
    (extract : List Nat → List Nat) (expand : List Nat → List Char → List Nat)
    (key : List Nat) (idData csrfData : Nat → List Nat) (clock : Nat → ℤ) (ttl : ℤ)
    (data : Option D) (u : Nat → ℚ) (tEnd : ℤ) :
    (∀ setRes : Nat → Option StoreErr,
      (∀ i, 1 ≤ i → i ≤ 4 → ∃ e, setRes i = some e ∧ e ≠ .invalidSessionData) →
      managerCreate mac extract expand key idData csrfData clock ttl data setRes u tEnd
        = ⟨none, [], 4, some .exhausted⟩)
    ∧ (∀ (setRes : Nat → Option StoreErr) (k : Nat), 1 ≤ k → k ≤ 4 →
        (∀ i, 1 ≤ i → i < k → ∃ e, setRes i = some e ∧ e ≠ .invalidSessionData) →
        setRes k = some .invalidSessionData →
        managerCreate mac extract expand key idData csrfData clock ttl data setRes u tEnd
          = ⟨none, [], k, some .aborted⟩)
    ∧ (∀ setRes : Nat → Option StoreErr,
        setRes 1 = some .sessionExists → setRes 2 = none →
        managerCreate mac extract expand key idData csrfData clock ttl data setRes u tEnd
          = ⟨some (createSessionAt mac extract expand key idData csrfData clock ttl data 2),
             [CreateStrictCookie sessionCookieName
               (createSessionAt mac extract expand key idData csrfData clock ttl data 2).id
               (tEnd + ttl + sessionCookieGracePeriod)],
             2, none⟩) := by
  have hval : (Backoff.mk 100000000 2 (1 / 5)).validate = none := by
    unfold Backoff.validate
    norm_num
  refine ⟨?_, ?_, ?_⟩
  · intro setRes h
    obtain ⟨e1, he1, hne1⟩ := h 1 (by norm_num) (by norm_num)
    obtain ⟨e2, he2, hne2⟩ := h 2 (by norm_num) (by norm_num)
    obtain ⟨e3, he3, hne3⟩ := h 3 (by norm_num) (by norm_num)
    obtain ⟨e4, he4, hne4⟩ := h 4 (by norm_num) (by norm_num)
    have f1 := createAttempt_fail setRes
      (createSessionAt mac extract expand key idData csrfData clock ttl data) 1 none e1 he1 hne1
    have f2 := createAttempt_fail setRes
      (createSessionAt mac extract expand key idData csrfData clock ttl data) 2 none e2 he2 hne2
    have f3 := createAttempt_fail setRes
      (createSessionAt mac extract expand key idData csrfData clock ttl data) 3 none e3 he3 hne3
    have f4 := createAttempt_fail setRes
      (createSessionAt mac extract expand key idData csrfData clock ttl data) 4 none e4 he4 hne4
    have hrun : (Backoff.mk 100000000 2 (1 / 5)).Do
        (createAttempt setRes
          (createSessionAt mac extract expand key idData csrfData clock ttl data)) u 4 none
        = ⟨.error .exhausted, none, 4,
           [scale 100000000 (1 + 1 / 5 * (2 * u 1 - 1)),
            scale (scale 100000000 2) (1 + 1 / 5 * (2 * u 2 - 1)),
            scale (scale (scale 100000000 2) 2) (1 + 1 / 5 * (2 * u 3 - 1))]⟩ := by
      unfold Backoff.Do
      rw [hval]
      show doLoop _ u _ 1 4 100000000 none = _
      simp only [doLoop, f1, f2, f3, f4]
      simp
    simp only [managerCreate, hrun]
  · intro setRes k hk1 hk4 hprev hk
    interval_cases k
    · have a1 := createAttempt_abort setRes
        (createSessionAt mac extract expand key idData csrfData clock ttl data) 1 none hk
      have hrun : (Backoff.mk 100000000 2 (1 / 5)).Do
          (createAttempt setRes
            (createSessionAt mac extract expand key idData csrfData clock ttl data)) u 4 none
          = ⟨.error .aborted, none, 1, []⟩ := by
        unfold Backoff.Do
        rw [hval]
        show doLoop _ u _ 1 4 100000000 none = _
        simp only [doLoop, a1]
        simp
      simp only [managerCreate, hrun]
    · obtain ⟨e1, he1, hne1⟩ := hprev 1 (by norm_num) (by norm_num)
      have f1 := createAttempt_fail setRes
        (createSessionAt mac extract expand key idData csrfData clock ttl data) 1 none e1 he1 hne1
      have a2 := createAttempt_abort setRes
        (createSessionAt mac extract expand key idData csrfData clock ttl data) 2 none hk
      have hrun : (Backoff.mk 100000000 2 (1 / 5)).Do
          (createAttempt setRes
            (createSessionAt mac extract expand key idData csrfData clock ttl data)) u 4 none
          = ⟨.error .aborted, none, 2, [scale 100000000 (1 + 1 / 5 * (2 * u 1 - 1))]⟩ := by
        unfold Backoff.Do
        rw [hval]
        show doLoop _ u _ 1 4 100000000 none = _
        simp only [doLoop, f1, a2]
        simp
      simp only [managerCreate, hrun]
    · obtain ⟨e1, he1, hne1⟩ := hprev 1 (by norm_num) (by norm_num)
      obtain ⟨e2, he2, hne2⟩ := hprev 2 (by norm_num) (by norm_num)
      have f1 := createAttempt_fail setRes
        (createSessionAt mac extract expand key idData csrfData clock ttl data) 1 none e1 he1 hne1
      have f2 := createAttempt_fail setRes
        (createSessionAt mac extract expand key idData csrfData clock ttl data) 2 none e2 he2 hne2
      have a3 := createAttempt_abort setRes
        (createSessionAt mac extract expand key idData csrfData clock ttl data) 3 none hk
      have hrun : (Backoff.mk 100000000 2 (1 / 5)).Do
          (createAttempt setRes
            (createSessionAt mac extract expand key idData csrfData clock ttl data)) u 4 none
          = ⟨.error .aborted, none, 3,
             [scale 100000000 (1 + 1 / 5 * (2 * u 1 - 1)),
              scale (scale 100000000 2) (1 + 1 / 5 * (2 * u 2 - 1))]⟩ := by
        unfold Backoff.Do
        rw [hval]
        show doLoop _ u _ 1 4 100000000 none = _
        simp only [doLoop, f1, f2, a3]
        simp
      simp only [managerCreate, hrun]
    · obtain ⟨e1, he1, hne1⟩ := hprev 1 (by norm_num) (by norm_num)
      obtain ⟨e2, he2, hne2⟩ := hprev 2 (by norm_num) (by norm_num)
      obtain ⟨e3, he3, hne3⟩ := hprev 3 (by norm_num) (by norm_num)
      have f1 := createAttempt_fail setRes
        (createSessionAt mac extract expand key idData csrfData clock ttl data) 1 none e1 he1 hne1
      have f2 := createAttempt_fail setRes
        (createSessionAt mac extract expand key idData csrfData clock ttl data) 2 none e2 he2 hne2
      have f3 := createAttempt_fail setRes
        (createSessionAt mac extract expand key idData csrfData clock ttl data) 3 none e3 he3 hne3
      have a4 := createAttempt_abort setRes
        (createSessionAt mac extract expand key idData csrfData clock ttl data) 4 none hk
      have hrun : (Backoff.mk 100000000 2 (1 / 5)).Do
          (createAttempt setRes
            (createSessionAt mac extract expand key idData csrfData clock ttl data)) u 4 none
          = ⟨.error .aborted, none, 4,
             [scale 100000000 (1 + 1 / 5 * (2 * u 1 - 1)),
              scale (scale 100000000 2) (1 + 1 / 5 * (2 * u 2 - 1)),
              scale (scale (scale 100000000 2) 2) (1 + 1 / 5 * (2 * u 3 - 1))]⟩ := by
        unfold Backoff.Do
        rw [hval]
        show doLoop _ u _ 1 4 100000000 none = _
        simp only [doLoop, f1, f2, f3, a4]
        simp
      simp only [managerCreate, hrun]
  · intro setRes h1 h2
    have f1 := createAttempt_fail setRes
      (createSessionAt mac extract expand key idData csrfData clock ttl data) 1 none
      .sessionExists h1 (by intro hh; cases hh)
    have o2 := createAttempt_ok setRes
      (createSessionAt mac extract expand key idData csrfData clock ttl data) 2 none h2
    have hrun : (Backoff.mk 100000000 2 (1 / 5)).Do
        (createAttempt setRes
          (createSessionAt mac extract expand key idData csrfData clock ttl data)) u 4 none
        = ⟨.ok (), some (createSessionAt mac extract expand key idData csrfData clock ttl data 2),
            2, [scale 100000000 (1 + 1 / 5 * (2 * u 1 - 1))]⟩ := by
      unfold Backoff.Do
      rw [hval]
      show doLoop _ u _ 1 4 100000000 none = _
      simp only [doLoop, f1, o2]
      simp
    simp only [managerCreate, hrun]

/-- Claim C6 witness: the exhaustion branch of the retry-protocol theorem
applied to a store that persistently answers `ErrSessionExists`. -/
theorem claim_c6_create_retry_protocol_witness :
    (∀ i : Nat, 1 ≤ i → i ≤ 4 →
      ∃ e, (fun _ : Nat => some StoreErr.sessionExists) i = some e
        ∧ e ≠ StoreErr.invalidSessionData)
    ∧ managerCreate (D := Nat) demoMac demoExtract demoExpand demoKey (fun _ => [1])
        (fun _ => [2]) (fun _ => 0) 1000 none (fun _ => some .sessionExists) (fun _ => 0) 0
      = ⟨none, [], 4, some .exhausted⟩ :=
  ⟨fun _ _ _ => ⟨.sessionExists, rfl, by decide⟩,
    (claim_c6_create_retry_protocol demoMac demoExtract demoExpand demoKey (fun _ => [1])
        (fun _ => [2]) (fun _ => 0) 1000 none (fun _ => 0) 0).1
      (fun _ => some .sessionExists) (fun _ _ _ => ⟨.sessionExists, rfl, by decide⟩)⟩

/-! ### Claim C9 (strict expiry comparisons) -/

/-- Claim C9: expiry comparisons are strict (`time.Time.Before`).
`Manager.lookup` treats a session whose `Expiration` equals the current
clock reading as still valid, and the in-memory store's eviction pass
evicts nothing when no queue entry's expiry is strictly before the current
time — in particular `Get` still returns a record whose queue entry
expires exactly now. -/
theorem claim_c9_strict_expiry (D S : Type) :
    (∀ (get : List Char → Except StoreErr (Session D)) (now : ℤ) (sid : List Char)
        (s : Session D), get sid = .ok s → s.expiration = now →
      managerLookup get now sid = .ok s)
    ∧ (∀ (st : MemStore S) (now : ℤ), (∀ e ∈ st.evictions.items, now ≤ e.expires) →
        st.evict now = st)
    ∧ (∀ (st : MemStore S) (now : ℤ) (sid : List Char) (s : S),
        (∀ e ∈ st.evictions.items, now ≤ e.expires) → assocGet st.items sid = some s →
        (st.Get now sid).1 = .ok s) := by
  have hevict : ∀ (st : MemStore S) (now : ℤ),
      (∀ e ∈ st.evictions.items, now ≤ e.expires) → st.evict now = st := by
    intro st now h
    have hgo : evictGo now st.evictions.Len st.evictions st.items
        = (st.evictions, st.items) := by
      cases hfuel : st.evictions.Len with
      | zero => rfl
      | succ m =>
        have hne : st.evictions.items ≠ [] := by
          intro hnil
          simp [evictionQueue.Len, hnil] at hfuel
        have hmem : st.evictions.Peek ∈ st.evictions.items := by
          unfold evictionQueue.Peek
          cases hitems : st.evictions.items with
          | nil => exact absurd hitems hne
          | cons a l => simp [List.getD]
        have hcond : ¬(0 < st.evictions.Len ∧ st.evictions.Peek.expires < now) := by
          rintro ⟨_, hlt⟩
          exact absurd hlt (not_lt.mpr (h _ hmem))
        unfold evictGo
        rw [if_neg hcond]
    simp only [MemStore.evict, hgo]
  refine ⟨?_, hevict, ?_⟩
  · intro get now sid s hget hexp
    unfold managerLookup
    rw [hget]
    simp [hexp]
  · intro st now sid s h hget
    simp only [MemStore.Get, hevict st now h, hget]

/-- Claim C9 witness: a session expiring exactly at the clock reading is
still returned by `lookup`, and a store record whose queue entry expires
exactly now survives eviction and is returned by `Get`. -/
theorem claim_c9_strict_expiry_witness :
    ((fun _ : List Char => (Except.ok (⟨[], none, 5, []⟩ : Session Nat) : Except StoreErr (Session Nat))) [] = .ok ⟨[], none, 5, []⟩)
      ∧ (Session.expiration (D := Nat) ⟨[], none, 5, []⟩ = 5)
      ∧ (∀ e ∈ (MemStore.mk [(['k'], 7)] ⟨[⟨5, ['k']⟩]⟩ : MemStore Nat).evictions.items,
          (5 : ℤ) ≤ e.expires)
      ∧ (assocGet (MemStore.mk [(['k'], 7)] ⟨[⟨5, ['k']⟩]⟩ : MemStore Nat).items ['k'] = some 7)
      ∧ managerLookup
          (fun _ : List Char => (Except.ok (⟨[], none, 5, []⟩ : Session Nat) : Except StoreErr (Session Nat)))
          5 [] = .ok ⟨[], none, 5, []⟩
      ∧ (MemStore.mk [(['k'], 7)] ⟨[⟨5, ['k']⟩]⟩ : MemStore Nat).evict 5
          = MemStore.mk [(['k'], 7)] ⟨[⟨5, ['k']⟩]⟩
      ∧ ((MemStore.mk [(['k'], 7)] ⟨[⟨5, ['k']⟩]⟩ : MemStore Nat).Get 5 ['k']).1 = .ok 7 :=
  ⟨rfl, rfl, by decide, by decide,
    (claim_c9_strict_expiry Nat Nat).1 _ 5 [] ⟨[], none, 5, []⟩ rfl rfl,
    (claim_c9_strict_expiry Nat Nat).2.1 (MemStore.mk [(['k'], 7)] ⟨[⟨5, ['k']⟩]⟩) 5 (by decide),
    (claim_c9_strict_expiry Nat Nat).2.2 (MemStore.mk [(['k'], 7)] ⟨[⟨5, ['k']⟩]⟩) 5 ['k'] 7
      (by decide) (by decide)⟩

/-! ### Claim C7 (eviction queue ordering) -/

/-- Heap behaviour on three entries with strictly increasing expiries,
inserted in each of the six possible orders: `Peek` after every push is
the minimum-so-far, and popping drains in expiry order. -/
theorem heap3_all_orders (x y z : trackedItem) (hxy : tiLess x y) (hyz : tiLess y z) :
    (peekSeqGo newEvictionQueue [x, y, z] = [x, x, x]
        ∧ popAll (pushSeq [x, y, z]) = [x, y, z])
      ∧ (peekSeqGo newEvictionQueue [x, z, y] = [x, x, x]
        ∧ popAll (pushSeq [x, z, y]) = [x, y, z])
      ∧ (peekSeqGo newEvictionQueue [y, x, z] = [y, x, x]
        ∧ popAll (pushSeq [y, x, z]) = [x, y, z])
      ∧ (peekSeqGo newEvictionQueue [y, z, x] = [y, y, x]
        ∧ popAll (pushSeq [y, z, x]) = [x, y, z])
      ∧ (peekSeqGo newEvictionQueue [z, x, y] = [z, x, x]
        ∧ popAll (pushSeq [z, x, y]) = [x, y, z])
      ∧ (peekSeqGo newEvictionQueue [z, y, x] = [z, y, x]
        ∧ popAll (pushSeq [z, y, x]) = [x, y, z]) := by
  have hxz : tiLess x z := lt_trans hxy hyz
  have nyx : ¬tiLess y x := lt_asymm hxy
  have nzy : ¬tiLess z y := lt_asymm hyz
  have nzx : ¬tiLess z x := lt_asymm hxz
  have nxx : ¬tiLess x x := lt_irrefl _
  have nyy : ¬tiLess y y := lt_irrefl _
  have nzz : ¬tiLess z z := lt_irrefl _
  refine ⟨⟨?_, ?_⟩, ⟨?_, ?_⟩, ⟨?_, ?_⟩, ⟨?_, ?_⟩, ⟨?_, ?_⟩, ⟨?_, ?_⟩⟩ <;>
    norm_num [peekSeqGo, popAll, popAllGo, pushSeq, evictionQueue.Push, evictionQueue.Peek,
      evictionQueue.Pop, evictionQueue.Len, newEvictionQueue, heapUp, heapDown, listSwap,
      defaultTI, hxy, hyz, hxz, nyx, nzy, nzx, nxx, nyy, nzz]

/-- Claim C7: pushing the eviction-queue entries `(a, t+1m)`, `(b, t+2m)`,
`(c, t+3m)` in any of the six insertion orders yields pop order
`a, b, c`, and after every push `Peek` returns the entry with the minimum
expiry among those currently in the queue (1m = 60000000000ns). -/
theorem claim_c7_eviction_queue_order (t : ℤ) :
    (peekSeqGo newEvictionQueue
        [⟨t + 60000000000, ['a']⟩, ⟨t + 120000000000, ['b']⟩, ⟨t + 180000000000, ['c']⟩]
        = [⟨t + 60000000000, ['a']⟩, ⟨t + 60000000000, ['a']⟩, ⟨t + 60000000000, ['a']⟩]
      ∧ popAll (pushSeq
        [⟨t + 60000000000, ['a']⟩, ⟨t + 120000000000, ['b']⟩, ⟨t + 180000000000, ['c']⟩])
        = [⟨t + 60000000000, ['a']⟩, ⟨t + 120000000000, ['b']⟩, ⟨t + 180000000000, ['c']⟩])
      ∧ (peekSeqGo newEvictionQueue
        [⟨t + 60000000000, ['a']⟩, ⟨t + 180000000000, ['c']⟩, ⟨t + 120000000000, ['b']⟩]
        = [⟨t + 60000000000, ['a']⟩, ⟨t + 60000000000, ['a']⟩, ⟨t + 60000000000, ['a']⟩]
      ∧ popAll (pushSeq
        [⟨t + 60000000000, ['a']⟩, ⟨t + 180000000000, ['c']⟩, ⟨t + 120000000000, ['b']⟩])
        = [⟨t + 60000000000, ['a']⟩, ⟨t + 120000000000, ['b']⟩, ⟨t + 180000000000, ['c']⟩])
      ∧ (peekSeqGo newEvictionQueue
        [⟨t + 120000000000, ['b']⟩, ⟨t + 60000000000, ['a']⟩, ⟨t + 180000000000, ['c']⟩]
        = [⟨t + 120000000000, ['b']⟩, ⟨t + 60000000000, ['a']⟩, ⟨t + 60000000000, ['a']⟩]
      ∧ popAll (pushSeq
        [⟨t + 120000000000, ['b']⟩, ⟨t + 60000000000, ['a']⟩, ⟨t + 180000000000, ['c']⟩])
        = [⟨t + 60000000000, ['a']⟩, ⟨t + 120000000000, ['b']⟩, ⟨t + 180000000000, ['c']⟩])
      ∧ (peekSeqGo newEvictionQueue
        [⟨t + 120000000000, ['b']⟩, ⟨t + 180000000000, ['c']⟩, ⟨t + 60000000000, ['a']⟩]
        = [⟨t + 120000000000, ['b']⟩, ⟨t + 120000000000, ['b']⟩, ⟨t + 60000000000, ['a']⟩]
      ∧ popAll (pushSeq
        [⟨t + 120000000000, ['b']⟩, ⟨t + 180000000000, ['c']⟩, ⟨t + 60000000000, ['a']⟩])
        = [⟨t + 60000000000, ['a']⟩, ⟨t + 120000000000, ['b']⟩, ⟨t + 180000000000, ['c']⟩])
      ∧ (peekSeqGo newEvictionQueue
        [⟨t + 180000000000, ['c']⟩, ⟨t + 60000000000, ['a']⟩, ⟨t + 120000000000, ['b']⟩]
        = [⟨t + 180000000000, ['c']⟩, ⟨t + 60000000000, ['a']⟩, ⟨t + 60000000000, ['a']⟩]
      ∧ popAll (pushSeq
        [⟨t + 180000000000, ['c']⟩, ⟨t + 60000000000, ['a']⟩, ⟨t + 120000000000, ['b']⟩])
        = [⟨t + 60000000000, ['a']⟩, ⟨t + 120000000000, ['b']⟩, ⟨t + 180000000000, ['c']⟩])
      ∧ (peekSeqGo newEvictionQueue
        [⟨t + 180000000000, ['c']⟩, ⟨t + 120000000000, ['b']⟩, ⟨t + 60000000000, ['a']⟩]
        = [⟨t + 180000000000, ['c']⟩, ⟨t + 120000000000, ['b']⟩, ⟨t + 60000000000, ['a']⟩]
      ∧ popAll (pushSeq
        [⟨t + 180000000000, ['c']⟩, ⟨t + 120000000000, ['b']⟩, ⟨t + 60000000000, ['a']⟩])
        = [⟨t + 60000000000, ['a']⟩, ⟨t + 120000000000, ['b']⟩, ⟨t + 180000000000, ['c']⟩]) :=
  heap3_all_orders ⟨t + 60000000000, ['a']⟩ ⟨t + 120000000000, ['b']⟩ ⟨t + 180000000000, ['c']⟩
    (by show t + 60000000000 < t + 120000000000; omega)
    (by show t + 120000000000 < t + 180000000000; omega)

/-! ### Claim C5 (stale eviction-queue entry after Del) -/

/-- Claim C5 evaluation at the failing input — the code violates the
claim.  Starting from the empty store at time 0: `Set("k", 1, ttl 10)`
succeeds (queue entry expiring at 10); `Del("k")` succeeds, removing the
map entry but leaving the queue entry; `Set("k", 2, ttl 100)` succeeds
(queue entry expiring at 100).  At time 50 — strictly before the second
record's expiry `0 + 100` — `Get("k")` pops the stale entry for the
deleted first record, whose unconditional `delete` removes the live
re-inserted record, and returns `ErrSessionNotFound` instead of the
stored session `2` that the claim requires. -/
theorem claim_c5_stale_entry_deletes_live_record :
    ((memNew : MemStore Nat).Set 0 ['k'] 1 10).1 = .ok ()
      ∧ (((memNew : MemStore Nat).Set 0 ['k'] 1 10).2.Del 0 ['k']).1 = .ok ()
      ∧ ((((memNew : MemStore Nat).Set 0 ['k'] 1 10).2.Del 0 ['k']).2.Set 0 ['k'] 2 100).1
          = .ok ()
      ∧ (50 : ℤ) < 0 + 100
      ∧ (((((memNew : MemStore Nat).Set 0 ['k'] 1 10).2.Del 0 ['k']).2.Set 0 ['k'] 2 100).2.Get
          50 ['k']).1 = .error .sessionNotFound := by
  decide

/-! ### Witnesses for the amended C3 and C4 theorems -/

/-- Claim C3 witness: the amended bit-flip theorem applied at payload
`"hello"`, position 1 of the payload segment (`'G'`), bit 0 (yielding
`'F'`, not a separator). -/
theorem claim_c3_payload_bitflip_witness :
    (1 < (base64urlEncode [104, 101, 108, 108, 111]).length)
      ∧ (0 < 8)
      ∧ ((demoMac demoKey (['v', '0', '!'] ++ base64urlEncode [104, 101, 108, 108, 111])).length
          = 32)
      ∧ (∀ x ∈ demoMac demoKey (['v', '0', '!'] ++ base64urlEncode [104, 101, 108, 108, 111]),
          x < 256)
      ∧ (flipBit ((base64urlEncode [104, 101, 108, 108, 111]).getD 1 'A') 0 ≠ '!')
      ∧ (flipBit ((base64urlEncode [104, 101, 108, 108, 111]).getD 1 'A') 0 ≠ '.')
      ∧ (demoMac demoKey (['v', '0', '!'] ++
            (base64urlEncode [104, 101, 108, 108, 111]).set 1
              (flipBit ((base64urlEncode [104, 101, 108, 108, 111]).getD 1 'A') 0))
          ≠ demoMac demoKey (['v', '0', '!'] ++ base64urlEncode [104, 101, 108, 108, 111]))
      ∧ v0.Verify demoMac demoKey
          ((v0.Create demoMac demoKey [104, 101, 108, 108, 111]).set (1 + 3)
            (flipBit ((base64urlEncode [104, 101, 108, 108, 111]).getD 1 'A') 0))
          = .error .invalidToken :=
  ⟨by decide, by decide, by decide, by decide, by decide, by decide, by decide,
    claim_c3_payload_bitflip demoMac demoKey [104, 101, 108, 108, 111] 1 0
      (by decide) (by decide) (by decide) (by decide) (by decide) (by decide) (by decide)⟩

/-- Claim C4 witness: the amended decode-after-MAC theorem applied to the
undecodable payload segment `"*GVsbG8="` and the MAC value of 32 one
bytes. -/
theorem claim_c4_payload_decode_after_mac_witness :
    ('!' ∉ ['*', 'G', 'V', 's', 'b', 'G', '8', '='])
      ∧ ('.' ∉ ['*', 'G', 'V', 's', 'b', 'G', '8', '='])
      ∧ (base64urlDecode ['*', 'G', 'V', 's', 'b', 'G', '8', '='] = none)
      ∧ ((List.replicate 32 1).length = 32)
      ∧ (∀ x ∈ List.replicate 32 1, x < 256)
      ∧ v0.Verify demoMac demoKey
          (['v', '0', '!'] ++ ['*', 'G', 'V', 's', 'b', 'G', '8', '=']
            ++ '.' :: base64urlEncode (List.replicate 32 1))
          = (if demoMac demoKey (['v', '0', '!'] ++ ['*', 'G', 'V', 's', 'b', 'G', '8', '='])
                = List.replicate 32 1
             then .error .badToken else .error .invalidToken) :=
  ⟨by decide, by decide, by decide, by decide, by decide,
    claim_c4_payload_decode_after_mac demoMac demoKey
      ['*', 'G', 'V', 's', 'b', 'G', '8', '='] (List.replicate 32 1)
      (by decide) (by decide) (by decide) (by decide) (by decide)⟩
